import Mathlib

/-!
Verification of the geometry/XML-assembly library of the mantidgeometry
repository against its specification.

The embedding models the pure computational content of
`SNS/SANS/utilities.py` and `basis_geometry.py`:

* Python floats are modelled as rationals (`ℚ`); the instrument scripts
  only perform field arithmetic on caller-supplied constants, and the
  numeric scenarios of the spec are exact decimal fractions.
* Pixel-ID arithmetic is on `ℤ` (Python ints).
* XML side effects (`le.SubElement(component, "location", **kwargs)`)
  are modelled by returning the ordered list of location records that
  the Python loop appends, in the same emission order.
* Trigonometric placement (`np.sin(np.deg2rad θ)`) is modelled by
  abstract function parameters `sinD cosD : ℚ → ℚ` standing for the
  composites `sin ∘ deg2rad` and `cos ∘ deg2rad`; the claims about the
  curved panel concern which angle is fed to them and equality between
  emitted attributes, not values of the trig functions themselves.
-/

namespace MantidGeometry

/-! ### Instrument-parameter dictionary (the keys used by the id-list code)

`iinfo` in `SNS/SANS/utilities.py` is a dict; the id-list functions read
the keys `pixels_per_tube` and `number_eightpacks`. -/

structure IInfo where
  pixels_per_tube : ℕ
  number_eightpacks : ℕ
deriving DecidableEq, Repr

/-! ### `panel_idlist` (utilities.py lines 431-457)

```
fourpack = 4 * iinfo["pixels_per_tube"]
idlist = list()
s = start
for i in range(iinfo["number_eightpacks"]):
    idlist.extend([s, s + fourpack - 1, None])
    s += fourpack + gap
return idlist
```

The loop is embedded as structural recursion on the remaining iteration
count, carrying the accumulator `s` exactly as the Python loop does. -/

def panel_idlist_go (fourpack gap : ℤ) : ℕ → ℤ → List (Option ℤ)
  | 0, _ => []
  | n + 1, s => some s :: some (s + fourpack - 1) :: none ::
      panel_idlist_go fourpack gap n (s + fourpack + gap)

/-- `panel_idlist(iinfo, start, gap)` from `SNS/SANS/utilities.py`. -/
def panel_idlist (iinfo : IInfo) (start gap : ℤ) : List (Option ℤ) :=
  panel_idlist_go (4 * (iinfo.pixels_per_tube : ℤ)) gap iinfo.number_eightpacks start

/-! ### `add_double_panel_idlist` (utilities.py lines 460-472)

```
fourpack = 4 * iinfo["pixels_per_tube"]
front_list = panel_idlist(iinfo, start=start, gap=fourpack)
back_list = panel_idlist(iinfo, start=start + fourpack, gap=fourpack)
det.addDetectorIds(name, front_list + back_list)
```
-/

/-- The `front_list` local of `add_double_panel_idlist`. -/
def double_panel_front_list (iinfo : IInfo) (start : ℤ) : List (Option ℤ) :=
  panel_idlist iinfo start (4 * (iinfo.pixels_per_tube : ℤ))

/-- The `back_list` local of `add_double_panel_idlist`. -/
def double_panel_back_list (iinfo : IInfo) (start : ℤ) : List (Option ℤ) :=
  panel_idlist iinfo (start + 4 * (iinfo.pixels_per_tube : ℤ))
    (4 * (iinfo.pixels_per_tube : ℤ))

/-- The id-list handed to `det.addDetectorIds` by `add_double_panel_idlist`:
`front_list + back_list`. -/
def add_double_panel_idlist (iinfo : IInfo) (start : ℤ) : List (Option ℤ) :=
  double_panel_front_list iinfo start ++ double_panel_back_list iinfo start

/-! ### Decoding an id-list

An id-list is a flat list of entries `(start, end, None)` repeated; the
consumer (`helper.addDetectorIds`) reads it three entries at a time and
enumerates the inclusive integer range `start..end` of each triple.
`idlist_triples` recovers the `(start, end)` pairs and `idlist_ids` the
enumerated pixel IDs. -/

/-- The inclusive integer range `s..e` enumerated by one `(s, e, None)`
triple of an id-list. -/
def tripleIds (s e : ℤ) : List ℤ :=
  (List.range (e + 1 - s).toNat).map (fun j : ℕ => s + (j : ℤ))

/-- Consecutive integers `s, s+1, ..., s+len-1`. -/
def intRangeLen (s : ℤ) (len : ℕ) : List ℤ :=
  (List.range len).map (fun j : ℕ => s + (j : ℤ))

/-- The `(start, end)` pairs of the triples of an id-list. -/
def idlist_triples : List (Option ℤ) → List (ℤ × ℤ)
  | some s :: some e :: none :: rest => (s, e) :: idlist_triples rest
  | _ => []

/-- All pixel IDs enumerated by an id-list, in source order. -/
def idlist_ids : List (Option ℤ) → List ℤ
  | some s :: some e :: none :: rest => tripleIds s e ++ idlist_ids rest
  | _ => []

/-! ### `add_flat_panel_type` (utilities.py lines 152-190)

```
effective_width = width + gap
pack_start = (effective_width / 2.0) * (num_elem - 1)
for i in range(num_elem):
    kwargs = dict(name=name_elem + str(first_index+i),
                  x=format(pack_start - i * effective_width, ".5f"))
    le.SubElement(component, "location", **kwargs)
```

Each loop iteration appends one `location` element; the model returns the
list of appended records in emission order, with the numeric x-offset
(the Python code renders it to 5 decimal places when serialising). -/

structure FlatLoc where
  name : String
  x : ℚ
deriving DecidableEq, Repr

/-- The location elements emitted by `add_flat_panel_type`. -/
def add_flat_panel_type (num_elem : ℕ) (width gap : ℚ)
    (name_elem : String) (first_index : ℕ) : List FlatLoc :=
  let effective_width := width + gap
  let pack_start := (effective_width / 2) * ((num_elem : ℚ) - 1)
  (List.range num_elem).map (fun i : ℕ =>
    ⟨name_elem ++ toString (first_index + i),
     pack_start - (i : ℚ) * effective_width⟩)

/-! ### `add_double_pack` (utilities.py lines 193-225)

```
pack_start_z = -separation / 2.0
pack_start_x = -slip / 2.0
prefix = ("front", "back")
for i in range(2):
    kwargs = dict(name=prefix[i] + "-" + pack_type,
                  x=str(pack_start_x + slip * i),
                  z=str(pack_start_z + separation * i))
    le.SubElement(component, "location", **kwargs)
```
-/

structure PackLoc where
  name : String
  x : ℚ
  z : ℚ
deriving DecidableEq, Repr

/-- The two location elements emitted by `add_double_pack`. -/
def add_double_pack (pack_type : String) (separation slip : ℚ) : List PackLoc :=
  let pack_start_z := -separation / 2
  let pack_start_x := -slip / 2
  let prefixes := ["front", "back"]
  (List.range 2).map (fun i : ℕ =>
    ⟨prefixes.getD i "" ++ "-" ++ pack_type,
     pack_start_x + slip * (i : ℚ),
     pack_start_z + separation * (i : ℚ)⟩)

/-! ### `add_curved_panel_type` (utilities.py lines 289-341)

```
theta_angles = dtheta * (0.5 + np.arange(num_elem)) - num_elem * dtheta / 2 + theta_0
x = to_str(radius * np.sin(np.deg2rad(theta_angles)) + transl[0])
y = to_str(transl[1] * np.ones(num_elem))
z = to_str(radius * np.cos(np.deg2rad(theta_angles)) + transl[2])
rot = to_str(theta_angles)
for i in range(num_elem):
    kwargs = dict(name=name_elem + str(first_index+i),
                  x=x[i], y=y[i], z=z[i], rot=rot[i])
```

The trigonometric placement `sin ∘ deg2rad` and `cos ∘ deg2rad` is
abstracted as function parameters `sinD cosD : ℚ → ℚ`, since the claims
about this function concern which angle is fed to them and the equality
between the emitted `rot` attribute and that angle. -/

/-- The angular position `theta_angles[k]` of element `k` of a curved
panel: `dtheta * (0.5 + k) - num_elem * dtheta / 2 + theta_0`. -/
def thetaAngle (num_elem : ℕ) (dtheta theta_0 : ℚ) (k : ℕ) : ℚ :=
  dtheta * (1 / 2 + (k : ℚ)) - (num_elem : ℚ) * dtheta / 2 + theta_0

/-- The `theta_angles` array of `add_curved_panel_type`. -/
def thetaAngles (num_elem : ℕ) (dtheta theta_0 : ℚ) : List ℚ :=
  (List.range num_elem).map (thetaAngle num_elem dtheta theta_0)

structure CurvedLoc where
  name : String
  x : ℚ
  y : ℚ
  z : ℚ
  rot : ℚ
deriving DecidableEq, Repr, Inhabited

/-- The location elements emitted by `add_curved_panel_type`. -/
def add_curved_panel_type (sinD cosD : ℚ → ℚ) (num_elem : ℕ)
    (radius dtheta theta_0 : ℚ) (transl : ℚ × ℚ × ℚ)
    (name_elem : String) (first_index : ℕ) : List CurvedLoc :=
  (List.range num_elem).map (fun i : ℕ =>
    ⟨name_elem ++ toString (first_index + i),
     radius * sinD (thetaAngle num_elem dtheta theta_0 i) + transl.1,
     transl.2.1,
     radius * cosD (thetaAngle num_elem dtheta theta_0 i) + transl.2.2,
     thetaAngle num_elem dtheta theta_0 i⟩)

/-! ### `make_filename` (utilities.py lines 38-62)

```
vfp, vtp = "", ""
for period in ("year", "month", "day"):
    vfp += str(getattr(parse_date(valid_from), period)) + "-"
    vtp += str(getattr(parse_date(valid_to), period)) + "-"
    if vfp != vtp:
        break
return instrument_name + "_Definition_" + vfp[:-1] + "_" + vtp[:-1] + ".xml"
```

Python strings are modelled as `List Char`; `str` applied to an integer
date component is modelled by `natToChars`, the decimal rendering of a
natural number (built on `Nat.digits 10`, which renders the same digit
sequence that Python `str` prints); the parsed dates are modelled by
their `(year, month, day)` components, since `make_filename` reads
exactly those three attributes of the `parse_date` results. -/

/-- Decimal rendering of a natural number as a character list: the model
of Python `str(n)` for a nonnegative integer `n`. -/
def natToChars (n : ℕ) : List Char :=
  if n = 0 then ['0'] else ((Nat.digits 10 n).reverse.map Nat.digitChar)

/-- The `(year, month, day)` components read from a `parse_date` result. -/
structure DateYMD where
  year : ℕ
  month : ℕ
  day : ℕ
deriving DecidableEq, Repr

/-- The accumulation loop of `make_filename`: one `(from, to)` component
pair per period, appending `str(component) + "-"` to each accumulator and
breaking as soon as the accumulated strings differ. -/
def make_filename_loop : List (ℕ × ℕ) → List Char → List Char →
    List Char × List Char
  | [], vfp, vtp => (vfp, vtp)
  | p :: rest, vfp, vtp =>
    let vfp2 := vfp ++ natToChars p.1 ++ ['-']
    let vtp2 := vtp ++ natToChars p.2 ++ ['-']
    if vfp2 ≠ vtp2 then (vfp2, vtp2) else make_filename_loop rest vfp2 vtp2

/-- `make_filename(instrument_name, valid_from, valid_to)` from
`SNS/SANS/utilities.py`, on the parsed date components. -/
def make_filename (instrument_name : List Char) (valid_from valid_to : DateYMD) :
    List Char :=
  let r := make_filename_loop
    [(valid_from.year, valid_to.year), (valid_from.month, valid_to.month),
     (valid_from.day, valid_to.day)] [] []
  instrument_name ++ ("_Definition_").data ++ r.1.dropLast ++ ("_").data ++
    r.2.dropLast ++ (".xml").data

/-- The `(year, month, day)` component list of a parsed date, in the
order the loop visits them. -/
def dateComponents (d : DateYMD) : List ℕ := [d.year, d.month, d.day]

/-- Number of leading date components kept by the truncation rule of the spec:
everything up to and including the first component (in year, month, day
order) where the two dates differ; all three when they agree. -/
def truncCount (f t : DateYMD) : ℕ :=
  if f.year ≠ t.year then 1 else if f.month ≠ t.month then 2 else 3

/-- Dash-joined decimal renderings of a component list. -/
def dashJoin (comps : List ℕ) : List Char :=
  List.intercalate ['-'] (comps.map natToChars)

/-- The filename pattern stated by the spec:
`instrument_Definition_from_to.xml` with both date fields dash-joined
and truncated at the first differing component. -/
def make_filename_spec (instrument_name : List Char) (f t : DateYMD) :
    List Char :=
  instrument_name ++ ("_Definition_").data ++
    dashJoin ((dateComponents f).take (truncCount f t)) ++ ("_").data ++
    dashJoin ((dateComponents t).take (truncCount f t)) ++ (".xml").data

/-! ### `basis_geometry.py`: the reflections table and
`generate_reflection_file` (lines 125-258)

```
refl = reflections[reflection_key]
if not os.path.exists(refl["nexus"]):
    message = refl["nexus"] + " not found. Not creating geometry"
    raise FileExistsError(message)
...
xml_outfile = inst_name + "_Definition_Si" + reflection_key + ".xml"
nfile = h5py.File(refl["nexus"], "r")
det = MantidGeom(inst_name, comment=comment, valid_from=valid_from)
...   # in-memory construction of the geometry tree
det.writeGeom(xml_outfile)
nfile.close()
```

The file system is abstracted as a predicate `pathExists`; the effectful
steps that matter to the error-handling claim (opening the nexus input,
constructing the `MantidGeom` object, writing the output file, closing
the input) are modelled as an ordered event trace returned on success.
The long sequence of in-memory `det.add*` calls between construction and
write mutates only the unserialised tree and is subsumed in the
`constructGeom .. writeGeom` span of the trace. A missing dictionary key
(Python `KeyError`) is modelled as `none`. -/

structure Reflection where
  nexus : String
  wavelength : ℚ
  ratio_to_irreducible_hkl : ℚ
  efixed : Bool
deriving DecidableEq, Repr

def nexus_file_111 : String := "/SNS/BSS/IPTS-5908/0/32264/NeXus/BSS_32264_event.nxs"

def nexus_file_311 : String := "/SNS/BSS/IPTS-5908/0/40473/NeXus/BSS_40473_event.nxs"

/-- The `reflections` dictionary of `basis_geometry.py`. -/
def reflections : List (String × Reflection) :=
  [("generic", ⟨nexus_file_111, 6.2712, 1, false⟩),
   ("111", ⟨nexus_file_111, 6.2712, 1, true⟩),
   ("333", ⟨nexus_file_111, 6.2712 / 3, 1 / 3, true⟩),
   ("311", ⟨nexus_file_311, 3.2750, 1, true⟩)]

/-- Dictionary lookup `reflections[reflection_key]`. -/
def lookupReflection (key : String) : Option Reflection :=
  (reflections.find? (fun kv => kv.1 == key)).map Prod.snd

/-- The externally visible effects of `generate_reflection_file`, in
program order. -/
inductive GeomEvent where
  | openNexus (path : String)
  | constructGeom
  | writeGeom (path : String)
  | closeNexus
deriving DecidableEq, Repr

/-- `generate_reflection_file(reflection_key)` over an abstract file
system: `none` models a `KeyError`, `Except.error` the raised
`FileExistsError` (carrying its message, with no events performed), and
`Except.ok` the successful run with its ordered event trace. -/
def generate_reflection_file (pathExists : String → Bool) (key : String) :
    Option (Except String (List GeomEvent)) :=
  match lookupReflection key with
  | none => none
  | some refl =>
    some (if pathExists refl.nexus = false then
        Except.error (refl.nexus ++ " not found. Not creating geometry")
      else
        Except.ok [GeomEvent.openNexus refl.nexus, GeomEvent.constructGeom,
          GeomEvent.writeGeom ("BASIS_Definition_Si" ++ key ++ ".xml"),
          GeomEvent.closeNexus])

/-! ### Closed forms for `panel_idlist` -/

theorem panel_idlist_go_triples (fourpack gap : ℤ) :
    ∀ (n : ℕ) (s : ℤ), idlist_triples (panel_idlist_go fourpack gap n s) =
      (List.range n).map (fun i : ℕ =>
        (s + (i : ℤ) * (fourpack + gap),
         s + (i : ℤ) * (fourpack + gap) + fourpack - 1)) := by
  intro n
  induction n with
  | zero => intro s; rfl
  | succ n ih =>
    intro s
    rw [List.range_succ_eq_map, List.map_cons, List.map_map]
    simp only [panel_idlist_go, idlist_triples]
    rw [ih (s + fourpack + gap)]
    congr 1
    · simp only [Prod.mk.injEq]
      constructor <;> (push_cast; ring)
    · apply List.map_congr_left
      intro i _
      simp only [Function.comp_apply, Prod.mk.injEq]
      constructor <;> (push_cast; ring)

theorem panel_idlist_triples (iinfo : IInfo) (start gap : ℤ) :
    idlist_triples (panel_idlist iinfo start gap) =
      (List.range iinfo.number_eightpacks).map (fun i : ℕ =>
        (start + (i : ℤ) * (4 * (iinfo.pixels_per_tube : ℤ) + gap),
         start + (i : ℤ) * (4 * (iinfo.pixels_per_tube : ℤ) + gap)
           + 4 * (iinfo.pixels_per_tube : ℤ) - 1)) :=
  panel_idlist_go_triples _ gap iinfo.number_eightpacks start

theorem panel_idlist_length (iinfo : IInfo) (start gap : ℤ) :
    (panel_idlist iinfo start gap).length = 3 * iinfo.number_eightpacks := by
  unfold panel_idlist
  generalize iinfo.number_eightpacks = n
  induction n generalizing start with
  | zero => rfl
  | succ n ih =>
    simp only [panel_idlist_go, List.length_cons, ih]
    ring

theorem tripleIds_fourpack (s : ℤ) (fourpack : ℕ) :
    tripleIds s (s + (fourpack : ℤ) - 1) = intRangeLen s fourpack := by
  unfold tripleIds intRangeLen
  rw [show s + (fourpack : ℤ) - 1 + 1 - s = (fourpack : ℤ) by ring, Int.toNat_natCast]

theorem intRangeLen_append (s : ℤ) (a b : ℕ) :
    intRangeLen s a ++ intRangeLen (s + (a : ℤ)) b = intRangeLen s (a + b) := by
  unfold intRangeLen
  rw [List.range_add, List.map_append, List.map_map]
  congr 1
  apply List.map_congr_left
  intro i _
  simp only [Function.comp_apply]
  push_cast
  ring

theorem panel_idlist_ids_dense (iinfo : IInfo) (start : ℤ) :
    idlist_ids (panel_idlist iinfo start 0) =
      intRangeLen start (iinfo.number_eightpacks * (4 * iinfo.pixels_per_tube)) := by
  unfold panel_idlist
  have key : ∀ (fp : ℕ) (n : ℕ) (s : ℤ),
      idlist_ids (panel_idlist_go (fp : ℤ) 0 n s) = intRangeLen s (n * fp) := by
    intro fp n
    induction n with
    | zero =>
      intro s
      simp [panel_idlist_go, idlist_ids, intRangeLen]
    | succ n ih =>
      intro s
      simp only [panel_idlist_go, idlist_ids]
      rw [add_zero, tripleIds_fourpack s fp, ih (s + fp), intRangeLen_append]
      congr 1
      ring
  have h4 : 4 * (iinfo.pixels_per_tube : ℤ) = ((4 * iinfo.pixels_per_tube : ℕ) : ℤ) := by
    push_cast; ring
  rw [h4, key]

theorem tripleIds_mem_bounds {s e a : ℤ} (h : a ∈ tripleIds s e) : s ≤ a ∧ a ≤ e := by
  unfold tripleIds at h
  obtain ⟨j, hj, rfl⟩ := List.mem_map.mp h
  have hj2 : j < (e + 1 - s).toNat := List.mem_range.mp hj
  omega

/-- C1: for every instrument-parameter dictionary with positive
`pixels_per_tube` and `number_eightpacks` and every integer `start`,
`panel_idlist` with `gap=0` yields triples whose concatenated ranges
enumerate exactly `number_eightpacks * 4 * pixels_per_tube` consecutive
integers `start, start+1, ..., start + total - 1`, with no gap and no
repetition; in particular for `number_eightpacks=2`, `pixels_per_tube=256`,
`start=0`, `gap=0` the returned list is
`[0, 1023, None, 1024, 2047, None]`. -/
theorem C1_panel_idlist_dense_enumeration (iinfo : IInfo) (start : ℤ)
    (hp : 0 < iinfo.pixels_per_tube) (hn : 0 < iinfo.number_eightpacks) :
    idlist_ids (panel_idlist iinfo start 0) =
      intRangeLen start (iinfo.number_eightpacks * (4 * iinfo.pixels_per_tube)) ∧
    panel_idlist ⟨256, 2⟩ 0 0 =
      [some 0, some 1023, none, some 1024, some 2047, none] :=
  ⟨panel_idlist_ids_dense iinfo start, by decide⟩

/-- Witness for C1 at `pixels_per_tube = 1`, `number_eightpacks = 1`,
`start = 5`. -/
theorem C1_panel_idlist_dense_enumeration_witness :
    (0 < (IInfo.mk 1 1).pixels_per_tube ∧ 0 < (IInfo.mk 1 1).number_eightpacks) ∧
    (idlist_ids (panel_idlist ⟨1, 1⟩ 5 0) =
        intRangeLen 5 ((IInfo.mk 1 1).number_eightpacks * (4 * (IInfo.mk 1 1).pixels_per_tube)) ∧
      panel_idlist ⟨256, 2⟩ 0 0 =
        [some 0, some 1023, none, some 1024, some 2047, none]) :=
  ⟨⟨by decide, by decide⟩,
   C1_panel_idlist_dense_enumeration ⟨1, 1⟩ 5 (by decide) (by decide)⟩

/-- C10: for every instrument-parameter dictionary with positive
`pixels_per_tube` and `number_eightpacks`, every integer `start` and every
integer `gap ≥ 0`, `panel_idlist` returns a list of exactly
`3 * number_eightpacks` entries forming `number_eightpacks` triples
`(sᵢ, eᵢ, None)` with `sᵢ = start + i*(4*pixels_per_tube + gap)` (so
`s₀ = start` and consecutive starts differ by exactly
`4*pixels_per_tube + gap`) and `eᵢ = sᵢ + 4*pixels_per_tube - 1` (each
triple spans exactly `4*pixels_per_tube` IDs), and the per-unit ranges are
pairwise disjoint: all IDs of an earlier triple are strictly below all
IDs of a later triple. -/
theorem C10_panel_idlist_structure (iinfo : IInfo) (start gap : ℤ)
    (hp : 0 < iinfo.pixels_per_tube) (hn : 0 < iinfo.number_eightpacks)
    (hg : 0 ≤ gap) :
    (panel_idlist iinfo start gap).length = 3 * iinfo.number_eightpacks ∧
    idlist_triples (panel_idlist iinfo start gap) =
      (List.range iinfo.number_eightpacks).map (fun i : ℕ =>
        (start + (i : ℤ) * (4 * (iinfo.pixels_per_tube : ℤ) + gap),
         start + (i : ℤ) * (4 * (iinfo.pixels_per_tube : ℤ) + gap)
           + 4 * (iinfo.pixels_per_tube : ℤ) - 1)) ∧
    (∀ i j : ℕ, i < j → j < iinfo.number_eightpacks →
      ∀ a ∈ tripleIds (start + (i : ℤ) * (4 * (iinfo.pixels_per_tube : ℤ) + gap))
          (start + (i : ℤ) * (4 * (iinfo.pixels_per_tube : ℤ) + gap)
            + 4 * (iinfo.pixels_per_tube : ℤ) - 1),
      ∀ b ∈ tripleIds (start + (j : ℤ) * (4 * (iinfo.pixels_per_tube : ℤ) + gap))
          (start + (j : ℤ) * (4 * (iinfo.pixels_per_tube : ℤ) + gap)
            + 4 * (iinfo.pixels_per_tube : ℤ) - 1),
      a < b) := by
  refine ⟨panel_idlist_length iinfo start gap, panel_idlist_triples iinfo start gap, ?_⟩
  intro i j hij hjn a ha b hb
  have hA := tripleIds_mem_bounds ha
  have hB := tripleIds_mem_bounds hb
  set fp : ℤ := 4 * (iinfo.pixels_per_tube : ℤ) with hfp
  have hij' : (1 : ℤ) ≤ (j : ℤ) - (i : ℤ) := by
    have : (i : ℤ) < (j : ℤ) := by exact_mod_cast hij
    omega
  have hfg : 0 ≤ fp + gap := by
    have : (0 : ℤ) ≤ fp := by positivity
    omega
  have hmul : (fp + gap) * 1 ≤ (fp + gap) * ((j : ℤ) - (i : ℤ)) :=
    mul_le_mul_of_nonneg_left hij' hfg
  have hexp : (j : ℤ) * (fp + gap) - (i : ℤ) * (fp + gap)
      = (fp + gap) * ((j : ℤ) - (i : ℤ)) := by ring
  omega

/-- Witness for C10 at `pixels_per_tube = 1`, `number_eightpacks = 2`,
`start = 0`, `gap = 1`. -/
theorem C10_panel_idlist_structure_witness :
    (0 < (IInfo.mk 1 2).pixels_per_tube ∧ 0 < (IInfo.mk 1 2).number_eightpacks ∧
      (0 : ℤ) ≤ 1) ∧
    ((panel_idlist ⟨1, 2⟩ 0 1).length = 3 * 2 ∧
      (0 : ℤ) ∈ tripleIds (0 + (0 : ℤ) * (4 * 1 + 1)) (0 + (0 : ℤ) * (4 * 1 + 1) + 4 * 1 - 1) ∧
      (5 : ℤ) ∈ tripleIds (0 + (1 : ℤ) * (4 * 1 + 1)) (0 + (1 : ℤ) * (4 * 1 + 1) + 4 * 1 - 1) ∧
      (0 : ℤ) < 5) := by
  have h := C10_panel_idlist_structure ⟨1, 2⟩ 0 1 (by decide) (by decide) (by decide)
  refine ⟨⟨by decide, by decide, by decide⟩, h.1, by decide, by decide, ?_⟩
  exact h.2.2 0 1 (by decide) (by decide) 0 (by decide) 5 (by decide)

/-- C2 counterexample: for `pixels_per_tube = 1`, `number_eightpacks = 2`,
`start = 0`, the id-list built by `add_double_panel_idlist` does NOT
enumerate the whole front panel before the back panel: the front list is
`[0, 3, None, 8, 11, None]` and the back list is `[4, 7, None, 12, 15, None]`,
so the front-panel ID 8 exceeds the back-panel ID 7. -/
theorem C2_front_before_back_counterexample :
    ¬ (∀ a ∈ idlist_ids (double_panel_front_list ⟨1, 2⟩ 0),
       ∀ b ∈ idlist_ids (double_panel_back_list ⟨1, 2⟩ 0), a < b) := by
  decide

/-- C2 amended: in the id-list produced by `add_double_panel_idlist` the
front and back fourpacks interleave; for each eight-pack index `i`, every
pixel ID of the `i`-th front-panel triple is strictly smaller than every
pixel ID of the `i`-th back-panel triple. -/
theorem C2_front_before_back_per_eightpack (iinfo : IInfo) (start : ℤ)
    (i : ℕ) (fs fe bs be a b : ℤ)
    (hf : (idlist_triples (double_panel_front_list iinfo start))[i]? = some (fs, fe))
    (hb : (idlist_triples (double_panel_back_list iinfo start))[i]? = some (bs, be))
    (ha : a ∈ tripleIds fs fe) (hbb : b ∈ tripleIds bs be) : a < b := by
  unfold double_panel_front_list at hf
  unfold double_panel_back_list at hb
  rw [panel_idlist_triples, List.getElem?_map] at hf hb
  set fp : ℤ := 4 * (iinfo.pixels_per_tube : ℤ) with hfp
  obtain ⟨k, hk, hk2⟩ := Option.map_eq_some'.mp hf
  obtain ⟨k', hk', hk2'⟩ := Option.map_eq_some'.mp hb
  obtain ⟨hklt, hkge⟩ := List.getElem?_eq_some.mp hk
  obtain ⟨hklt', hkge'⟩ := List.getElem?_eq_some.mp hk'
  rw [List.getElem_range] at hkge hkge'
  subst hkge hkge'
  obtain ⟨hfs, hfe⟩ := Prod.mk.injEq .. ▸ hk2
  obtain ⟨hbs, hbe⟩ := Prod.mk.injEq .. ▸ hk2'
  have hA := tripleIds_mem_bounds ha
  have hB := tripleIds_mem_bounds hbb
  omega

/-- Witness for C2 amended at `pixels_per_tube = 1`, `number_eightpacks = 1`,
`start = 0`, `i = 0`. -/
theorem C2_front_before_back_per_eightpack_witness :
    ((idlist_triples (double_panel_front_list ⟨1, 1⟩ 0))[0]? = some ((0 : ℤ), (3 : ℤ)) ∧
      (idlist_triples (double_panel_back_list ⟨1, 1⟩ 0))[0]? = some ((4 : ℤ), (7 : ℤ)) ∧
      (2 : ℤ) ∈ tripleIds 0 3 ∧ (5 : ℤ) ∈ tripleIds 4 7) ∧
    (2 : ℤ) < 5 :=
  ⟨⟨by decide, by decide, by decide, by decide⟩,
   C2_front_before_back_per_eightpack ⟨1, 1⟩ 0 0 0 3 4 7 2 5
     (by decide) (by decide) (by decide) (by decide)⟩

/-- C3 counterexample: the k-th location emitted by `add_flat_panel_type`
does not have x-offset `(k - (n-1)/2) * pitch`; at `num_elem = 4`,
`width = 0.0082`, `gap = 0`, `k = 0` the emitted offset is `+0.0123`
while the claimed formula gives `-0.0123`. -/
theorem C3_flat_offset_counterexample :
    ¬ (((add_flat_panel_type 4 (0.0082 : ℚ) 0 "fourpack" 1).map FlatLoc.x).getD 0 0 =
       ((0 : ℚ) - ((4 : ℚ) - 1) / 2) * ((0.0082 : ℚ) + 0)) := by
  unfold add_flat_panel_type
  rw [show List.range 4 = [0, 1, 2, 3] from rfl]
  simp only [List.map_cons, List.map_nil, List.getD_cons_zero]
  norm_num

/-- C3 amended: for every flat panel generated by `add_flat_panel_type`
with `num_elem = n` elements and pitch `p = width + gap`, the k-th emitted
location (in emission order) has x-offset `((n-1)/2 - k) * p` (the
negation of the claimed formula, giving the descending order of the
scenario). -/
theorem C3_flat_offset_formula (num_elem : ℕ) (width gap : ℚ)
    (name_elem : String) (first_index : ℕ) (k : ℕ) (hk : k < num_elem) :
    ((add_flat_panel_type num_elem width gap name_elem first_index).map
        FlatLoc.x).getD k 0 =
      (((num_elem : ℚ) - 1) / 2 - (k : ℚ)) * (width + gap) := by
  unfold add_flat_panel_type
  rw [List.map_map, List.getD_eq_getElem?_getD, List.getElem?_map,
    List.getElem?_range hk]
  simp only [Option.map_some', Option.getD_some, Function.comp_apply]
  ring

/-- Witness for C3 amended at `num_elem = 4`, `width = 0.0082`, `gap = 0`,
`k = 0`. -/
theorem C3_flat_offset_formula_witness :
    (0 < 4) ∧
    ((add_flat_panel_type 4 (0.0082 : ℚ) 0 "fourpack" 1).map FlatLoc.x).getD 0 0 =
      (((4 : ℚ) - 1) / 2 - (0 : ℚ)) * ((0.0082 : ℚ) + 0) :=
  ⟨by decide, C3_flat_offset_formula 4 (0.0082 : ℚ) 0 "fourpack" 1 0 (by decide)⟩

/-- C4: calling `add_flat_panel_type` with `num_elem = 4`,
`width = 0.0082`, `gap = 0.0` emits exactly four location elements whose
x-offsets, in emission order, are `0.0123, 0.0041, -0.0041, -0.0123`
(descending, centered about zero, spaced by `width`). -/
theorem C4_flat_panel_scenario (name_elem : String) (first_index : ℕ) :
    (add_flat_panel_type 4 (0.0082 : ℚ) 0 name_elem first_index).map FlatLoc.x =
      [(0.0123 : ℚ), (0.0041 : ℚ), (-0.0041 : ℚ), (-0.0123 : ℚ)] := by
  unfold add_flat_panel_type
  norm_num [List.range_succ]

/-- C5: for every curved panel generated by `add_curved_panel_type` with
`num_elem = n` elements, angular step `dtheta` and angular shift
`theta_0`, the arithmetic mean of the n per-element angles equals
`theta_0`. -/
theorem C5_curved_panel_mean_angle (num_elem : ℕ) (dtheta theta_0 : ℚ)
    (hn : 0 < num_elem) :
    (thetaAngles num_elem dtheta theta_0).sum / (num_elem : ℚ) = theta_0 := by
  have aux : ∀ m : ℕ,
      ((List.range m).map (thetaAngle num_elem dtheta theta_0)).sum =
        dtheta * (m : ℚ) ^ 2 / 2 +
          (m : ℚ) * (theta_0 - (num_elem : ℚ) * dtheta / 2) := by
    intro m
    induction m with
    | zero => simp
    | succ m ih =>
      rw [List.range_succ, List.map_append, List.sum_append, ih]
      simp only [List.map_cons, List.map_nil, List.sum_cons, List.sum_nil]
      unfold thetaAngle
      push_cast
      ring
  have hne : (num_elem : ℚ) ≠ 0 := by
    exact_mod_cast Nat.pos_iff_ne_zero.mp hn
  unfold thetaAngles
  rw [aux num_elem]
  field_simp
  ring

/-- Witness for C5 at `num_elem = 2`, `dtheta = 1`, `theta_0 = 3`. -/
theorem C5_curved_panel_mean_angle_witness :
    (0 < 2) ∧ (thetaAngles 2 (1 : ℚ) 3).sum / (2 : ℚ) = 3 :=
  ⟨by decide, C5_curved_panel_mean_angle 2 1 3 (by decide)⟩

/-- C6: every location emitted by `add_curved_panel_type` carries a `rot`
attribute equal to the angular position `theta_k` of that element, and
the same angle is the one fed (through `sin ∘ deg2rad` and
`cos ∘ deg2rad`, abstracted as `sinD`, `cosD`) to the placement
`x = radius * sinD theta_k + transl[0]`,
`z = radius * cosD theta_k + transl[2]`. -/
theorem C6_curved_panel_rot_faces_focal (sinD cosD : ℚ → ℚ) (num_elem : ℕ)
    (radius dtheta theta_0 : ℚ) (transl : ℚ × ℚ × ℚ)
    (name_elem : String) (first_index : ℕ) (k : ℕ) (hk : k < num_elem) :
    ((add_curved_panel_type sinD cosD num_elem radius dtheta theta_0
        transl name_elem first_index).getD k default).rot =
      thetaAngle num_elem dtheta theta_0 k ∧
    ((add_curved_panel_type sinD cosD num_elem radius dtheta theta_0
        transl name_elem first_index).getD k default).x =
      radius * sinD (thetaAngle num_elem dtheta theta_0 k) + transl.1 ∧
    ((add_curved_panel_type sinD cosD num_elem radius dtheta theta_0
        transl name_elem first_index).getD k default).z =
      radius * cosD (thetaAngle num_elem dtheta theta_0 k) + transl.2.2 := by
  unfold add_curved_panel_type
  rw [List.getD_eq_getElem?_getD, List.getElem?_map, List.getElem?_range hk]
  exact ⟨rfl, rfl, rfl⟩

/-- Witness for C6 at `sinD = cosD = id`, `num_elem = 1`, `radius = 2`,
`dtheta = 1`, `theta_0 = 0`, `k = 0`. -/
theorem C6_curved_panel_rot_faces_focal_witness :
    0 < 1 ∧
    (((add_curved_panel_type (id : ℚ → ℚ) (id : ℚ → ℚ) 1 2 1 0 (0, 0, 0)
          "bank" 1).getD 0 default).rot = thetaAngle 1 1 0 0 ∧
      ((add_curved_panel_type (id : ℚ → ℚ) (id : ℚ → ℚ) 1 2 1 0 (0, 0, 0)
          "bank" 1).getD 0 default).x =
        2 * id (thetaAngle 1 1 0 0) + ((0 : ℚ), (0 : ℚ), (0 : ℚ)).1 ∧
      ((add_curved_panel_type (id : ℚ → ℚ) (id : ℚ → ℚ) 1 2 1 0 (0, 0, 0)
          "bank" 1).getD 0 default).z =
        2 * id (thetaAngle 1 1 0 0) + ((0 : ℚ), (0 : ℚ), (0 : ℚ)).2.2) :=
  ⟨by decide,
   C6_curved_panel_rot_faces_focal id id 1 2 1 0 (0, 0, 0) "bank" 1 0 (by decide)⟩

/-- C7: for every separation `s` and slip `l`, `add_double_pack` emits
exactly two child location elements of the base pack type, named with
prefixes `front` and `back`, placed at `(x, z) = (-l/2, -s/2)` and
`(x, z) = (+l/2, +s/2)` respectively. -/
theorem C7_double_pack_locations (pack_type : String) (separation slip : ℚ) :
    add_double_pack pack_type separation slip =
      [⟨"front" ++ "-" ++ pack_type, -slip / 2, -separation / 2⟩,
       ⟨"back" ++ "-" ++ pack_type, slip / 2, separation / 2⟩] := by
  unfold add_double_pack
  norm_num [List.range_succ]
  constructor <;> ring

theorem undigit_digitChar : ∀ d : ℕ, d < 10 → (Nat.digitChar d).toNat - 48 = d := by
  decide

theorem natToChars_map_undigit (n : ℕ) :
    ((Nat.digits 10 n).reverse.map Nat.digitChar).map (fun c : Char => c.toNat - 48) =
      (Nat.digits 10 n).reverse := by
  rw [List.map_map]
  have h : ∀ d ∈ (Nat.digits 10 n).reverse,
      ((fun c : Char => c.toNat - 48) ∘ Nat.digitChar) d = id d := by
    intro d hd
    have hd10 : d < 10 := Nat.digits_lt_base (by norm_num) (List.mem_reverse.mp hd)
    simpa using undigit_digitChar d hd10
  rw [List.map_congr_left h, List.map_id]

theorem natToChars_injective : ∀ a b : ℕ, natToChars a = natToChars b → a = b := by
  have digits_of_chars : ∀ b : ℕ, b ≠ 0 →
      (Nat.digits 10 b).reverse.map Nat.digitChar = ['0'] → False := by
    intro b hb h
    have h2 := congrArg (List.map (fun c : Char => c.toNat - 48)) h
    rw [natToChars_map_undigit] at h2
    have h3 : Nat.digits 10 b = [0] := by
      have := congrArg List.reverse h2
      simpa using this
    have h4 : b = Nat.ofDigits 10 (Nat.digits 10 b) := (Nat.ofDigits_digits 10 b).symm
    rw [h3] at h4
    simp [Nat.ofDigits] at h4
    exact hb h4
  intro a b h
  unfold natToChars at h
  by_cases ha : a = 0 <;> by_cases hb : b = 0
  · exact ha.trans hb.symm
  · rw [if_pos ha, if_neg hb] at h
    exact absurd h.symm (fun hh => digits_of_chars b hb hh)
  · rw [if_neg ha, if_pos hb] at h
    exact absurd h (fun hh => digits_of_chars a ha hh)
  · rw [if_neg ha, if_neg hb] at h
    have h2 := congrArg (List.map (fun c : Char => c.toNat - 48)) h
    rw [natToChars_map_undigit, natToChars_map_undigit] at h2
    have h3 : Nat.digits 10 a = Nat.digits 10 b := by
      have := congrArg List.reverse h2
      simpa using this
    calc a = Nat.ofDigits 10 (Nat.digits 10 a) := (Nat.ofDigits_digits 10 a).symm
    _ = Nat.ofDigits 10 (Nat.digits 10 b) := by rw [h3]
    _ = b := Nat.ofDigits_digits 10 b

theorem append_dash_eq_iff (s : List Char) (a b : ℕ) :
    s ++ natToChars a ++ ['-'] = s ++ natToChars b ++ ['-'] ↔ a = b := by
  constructor
  · intro h
    rw [List.append_assoc, List.append_assoc, List.append_cancel_left_eq,
      List.append_cancel_right_eq] at h
    exact natToChars_injective a b h
  · rintro rfl; rfl

theorem natToChars_dash_inj {a b : ℕ}
    (h : natToChars a ++ ['-'] = natToChars b ++ ['-']) : a = b := by
  rw [List.append_cancel_right_eq] at h
  exact natToChars_injective a b h

theorem dropLast_append_singleton (l : List Char) (c : Char) :
    (l ++ [c]).dropLast = l := by
  rw [List.dropLast_append_cons, List.dropLast_single, List.append_nil]

theorem intercalate_single (sep x : List Char) :
    List.intercalate sep [x] = x := by
  simp [List.intercalate, List.intersperse]

theorem intercalate_pair (sep x y : List Char) :
    List.intercalate sep [x, y] = x ++ sep ++ y := by
  simp [List.intercalate, List.intersperse]

theorem intercalate_triple (sep x y z : List Char) :
    List.intercalate sep [x, y, z] = x ++ sep ++ y ++ sep ++ z := by
  simp [List.intercalate, List.intersperse]

theorem make_filename_loop_break (p : ℕ × ℕ) (rest : List (ℕ × ℕ))
    (vfp vtp : List Char)
    (h : vfp ++ natToChars p.1 ++ ['-'] ≠ vtp ++ natToChars p.2 ++ ['-']) :
    make_filename_loop (p :: rest) vfp vtp =
      (vfp ++ natToChars p.1 ++ ['-'], vtp ++ natToChars p.2 ++ ['-']) := by
  simp only [make_filename_loop]
  rw [if_pos h]

theorem make_filename_loop_cont (p : ℕ × ℕ) (rest : List (ℕ × ℕ))
    (vfp vtp : List Char)
    (h : vfp ++ natToChars p.1 ++ ['-'] = vtp ++ natToChars p.2 ++ ['-']) :
    make_filename_loop (p :: rest) vfp vtp =
      make_filename_loop rest (vfp ++ natToChars p.1 ++ ['-'])
        (vtp ++ natToChars p.2 ++ ['-']) := by
  simp only [make_filename_loop]
  rw [if_neg (not_not_intro h)]

theorem make_filename_loop_last (p : ℕ × ℕ) (vfp vtp : List Char) :
    make_filename_loop [p] vfp vtp =
      (vfp ++ natToChars p.1 ++ ['-'], vtp ++ natToChars p.2 ++ ['-']) := by
  simp only [make_filename_loop, ite_self]

/-- C8: for every instrument name and every pair of parsed
`valid_from` / `valid_to` dates, `make_filename` returns
`instrument_Definition_from_to.xml` in which the two date fields are
dash-joined year, month, day components of the parsed dates, both
truncated at the first date component (in year, month, day order) where
the two dates differ; when year, month and day all agree, both full
three-component dates appear. -/
theorem C8_make_filename_pattern (name : List Char) (f t : DateYMD) :
    make_filename name f t = make_filename_spec name f t := by
  by_cases hy : f.year = t.year
  · by_cases hm : f.month = t.month
    · have htc : truncCount f t = 3 := by
        unfold truncCount
        rw [if_neg (not_not_intro hy), if_neg (not_not_intro hm)]
      unfold make_filename make_filename_spec dashJoin
      rw [htc, show (dateComponents f).take 3 = [f.year, f.month, f.day] from rfl,
        show (dateComponents t).take 3 = [t.year, t.month, t.day] from rfl,
        make_filename_loop_cont _ _ _ _ (by rw [hy]),
        make_filename_loop_cont _ _ _ _ (by rw [hy, hm]),
        make_filename_loop_last]
      simp only [List.map_cons, List.map_nil, intercalate_triple,
        List.nil_append, dropLast_append_singleton]
    · have htc : truncCount f t = 2 := by
        unfold truncCount
        rw [if_neg (not_not_intro hy), if_pos hm]
      unfold make_filename make_filename_spec dashJoin
      rw [htc, show (dateComponents f).take 2 = [f.year, f.month] from rfl,
        show (dateComponents t).take 2 = [t.year, t.month] from rfl,
        make_filename_loop_cont _ _ _ _ (by rw [hy]),
        make_filename_loop_break _ _ _ _ (by
          rw [hy]
          exact fun hh => hm ((append_dash_eq_iff _ f.month t.month).mp hh))]
      simp only [List.map_cons, List.map_nil, intercalate_pair,
        List.nil_append, dropLast_append_singleton]
  · have htc : truncCount f t = 1 := by
      unfold truncCount
      rw [if_pos hy]
    unfold make_filename make_filename_spec dashJoin
    rw [htc, show (dateComponents f).take 1 = [f.year] from rfl,
      show (dateComponents t).take 1 = [t.year] from rfl,
      make_filename_loop_break _ _ _ _ (by
        simp only [List.nil_append]
        exact fun hh => hy (natToChars_dash_inj hh))]
    simp only [List.map_cons, List.map_nil, intercalate_single,
      List.nil_append, dropLast_append_singleton]

/-- C9: for every reflection key present in the table,
`generate_reflection_file` raises an exception whose message names the
missing input file if and only if the nexus file path of the reflection
does not exist — and in that case no geometry object is constructed and
no output file is written (the error trace carries no events); when the
file exists, the check passes without error and the run proceeds to
open the input, construct the geometry, write the output file and close
the input. -/
theorem C9_missing_nexus_aborts (pathExists : String → Bool) (key : String)
    (refl : Reflection) (h : lookupReflection key = some refl) :
    (pathExists refl.nexus = false →
      generate_reflection_file pathExists key =
        some (Except.error (refl.nexus ++ " not found. Not creating geometry"))) ∧
    (pathExists refl.nexus = true →
      generate_reflection_file pathExists key =
        some (Except.ok [GeomEvent.openNexus refl.nexus, GeomEvent.constructGeom,
          GeomEvent.writeGeom ("BASIS_Definition_Si" ++ key ++ ".xml"),
          GeomEvent.closeNexus])) := by
  unfold generate_reflection_file
  rw [h]
  constructor
  · intro hpe
    simp [hpe]
  · intro hpe
    simp [hpe]

/-- Witness for C9 at `key = "111"` with a file system in which no path
exists. -/
theorem C9_missing_nexus_aborts_witness :
    (lookupReflection "111" = some ⟨nexus_file_111, 6.2712, 1, true⟩) ∧
    ((fun _ : String => false) (Reflection.mk nexus_file_111 6.2712 1 true).nexus
        = false) ∧
    generate_reflection_file (fun _ : String => false) "111" =
      some (Except.error ((Reflection.mk nexus_file_111 6.2712 1 true).nexus ++
        " not found. Not creating geometry")) :=
  ⟨rfl, rfl,
   (C9_missing_nexus_aborts (fun _ : String => false) "111"
     ⟨nexus_file_111, 6.2712, 1, true⟩ rfl).1 rfl⟩

end MantidGeometry
